import Mathlib

/-!
Verification of the ReasoningBank memory subsystem of chantilly-adk:
a shallow embedding of `src/services/memoryTestTimeScaling.js` and
`src/services/memoryConsolidation.js` (the `MemoryConsolidation` and
`BuildMemoryService` classes), with theorems settling the specification
claims about trajectory scoring, parallel/sequential test-time scaling,
the consolidation passes and cosine similarity.

Modelling conventions:
* JS numbers are modelled as exact rationals (`ℚ`); the cosine ratio,
  which involves square roots, lives in `ℝ`.
* `null`/`undefined` fields are `Option.none`; JS truthiness of a number
  is "≠ 0", of a string "nonempty", of an object "always true".
* Fallible repository operations are modelled by `Except`/`Bool`-valued
  outcome parameters supplied by the environment; a function that can
  throw returns an outcome type with an explicit `thrown`/`crash` case.
-/

namespace ChantillyAdk

/-! ## Trajectory results and the scorer (`_scoreTrajectory`) -/

/-- The fields of an executor result that the MaTTS code reads.
`steps` and `executionTime` are JS numbers (absent = `none`);
`outputDataKeys` is the number of keys of `outputData` when that object is
present; `htmlReportLen` is the length of the `htmlReport` string when
present. -/
structure TrajResult where
  success : Bool
  steps : Option ℚ := none
  executionTime : Option ℚ := none
  outputDataKeys : Option ℕ := none
  htmlReportLen : Option ℕ := none
deriving DecidableEq, Repr

/-- JS condition `result.steps && result.steps < 10`: the number must be
truthy (nonzero) and below the bound. -/
def jsStepsBonus (x : Option ℚ) : Bool :=
  match x with
  | some s => s != 0 && decide (s < 10)
  | none => false

/-- JS condition `result.executionTime && result.executionTime < 5000`. -/
def jsTimeBonus (x : Option ℚ) : Bool :=
  match x with
  | some t => t != 0 && decide (t < 5000)
  | none => false

/-- JS condition `result.outputData && Object.keys(result.outputData).length > 5`:
an object is always truthy, so presence plus more than 5 keys. -/
def jsOutputBonus (x : Option ℕ) : Bool :=
  match x with
  | some k => decide (5 < k)
  | none => false

/-- JS condition `result.htmlReport && result.htmlReport.length > 1000`:
a string is truthy when nonempty. -/
def jsHtmlBonus (x : Option ℕ) : Bool :=
  match x with
  | some n => n != 0 && decide (1000 < n)
  | none => false

/-- `MemoryTestTimeScaling._scoreTrajectory`
(src/services/memoryTestTimeScaling.js lines 250-274): 0 for a missing or
unsuccessful result, otherwise base 0.5 plus the four bonuses, capped at 1. -/
def scoreTrajectory (result : Option TrajResult) : ℚ :=
  match result with
  | none => 0
  | some r =>
    if r.success = false then 0
    else
      min (1/2
        + (if jsStepsBonus r.steps then 2/10 else 0)
        + (if jsTimeBonus r.executionTime then 1/10 else 0)
        + (if jsOutputBonus r.outputDataKeys then 1/10 else 0)
        + (if jsHtmlBonus r.htmlReportLen then 1/10 else 0)) 1

/-- The scorer as the (amended) claim describes it, written from the claim's
words: 0 when the result is null or `success` is false; otherwise 0.5, plus
0.2 when `steps` is present, nonzero and < 10, plus 0.1 when `executionTime`
is present, nonzero and < 5000, plus 0.1 when `outputData` is present with
more than 5 keys, plus 0.1 when `htmlReport` is present with length > 1000,
clamped to 1. -/
def claimScore (result : Option TrajResult) : ℚ :=
  match result with
  | none => 0
  | some r =>
    if r.success = false then 0
    else
      min (1/2
        + (if r.steps.any (fun s => s != 0 && decide (s < 10)) then 2/10 else 0)
        + (if r.executionTime.any (fun t => t != 0 && decide (t < 5000)) then 1/10 else 0)
        + (if r.outputDataKeys.any (fun k => decide (5 < k)) then 1/10 else 0)
        + (if r.htmlReportLen.any (fun n => n != 0 && decide (1000 < n)) then 1/10 else 0)) 1

/-! ## Embedding vectors and cosine similarity (`_cosineSimilarity`) -/

/-- Shapes a (truthy) embedding value can take in the JS code: a raw array,
a Firestore vector object carrying a `_values` array, an object carrying a
plain `values` field (but no `_values`), or any other truthy non-array value.
A falsy value (`null`, `undefined`, `0`, `''`) is modelled as `Option.none`
at the use sites. -/
inductive EmbeddingInput where
  | vec (xs : List ℚ)
  | fsVec (xs : List ℚ)
  | wrappedValues (xs : List ℚ)
  | other
deriving DecidableEq, Repr

/-- The unwrap step `const arr = vec._values || vec` followed by the
`Array.isArray(arr)` check: a raw array stands as itself, a Firestore vector
yields its `_values` array, anything else is not an array. -/
def unwrapArr : EmbeddingInput → Option (List ℚ)
  | .vec xs => some xs
  | .fsVec xs => some xs
  | .wrappedValues _ => none
  | .other => none

/-- Sum of squares of a vector's components (the `mag` accumulators before
taking the square root). -/
def sumSq (xs : List ℚ) : ℚ := (xs.map (fun a => a * a)).sum

/-- The `dotProduct` accumulator. -/
def dotProd (xs ys : List ℚ) : ℚ := (List.zipWith (fun a b => a * b) xs ys).sum

open Classical in
/-- `MemoryConsolidation._cosineSimilarity`
(src/services/memoryConsolidation.js lines 274-315): guards return 0, the
main path returns `dot / (sqrt mag1 * sqrt mag2)` over the reals. -/
noncomputable def cosineSimilarity (v1 v2 : Option EmbeddingInput) : ℝ :=
  match v1, v2 with
  | some w1, some w2 =>
    match unwrapArr w1, unwrapArr w2 with
    | some a1, some a2 =>
      if a1.length ≠ a2.length then 0
      else if Real.sqrt ((sumSq a1 : ℚ) : ℝ) = 0 ∨ Real.sqrt ((sumSq a2 : ℚ) : ℝ) = 0 then 0
      else ((dotProd a1 a2 : ℚ) : ℝ) / (Real.sqrt ((sumSq a1 : ℚ) : ℝ) * Real.sqrt ((sumSq a2 : ℚ) : ℝ))
    | _, _ => 0
  | _, _ => 0

/-- Decidable version of the test `similarity >= 0.95` used by the merge
pass: all guards pass and `dot / (sqrt S1 * sqrt S2) ≥ 19/20`, expressed
without square roots as `dot ≥ 0 ∧ 361·S1·S2 ≤ 400·dot²`. The bridge lemma
`simGE095_iff_cos` proves it equivalent to the real-valued comparison. -/
def simGE095 (w1 w2 : EmbeddingInput) : Bool :=
  match unwrapArr w1, unwrapArr w2 with
  | some a1, some a2 =>
    decide (a1.length = a2.length) &&
    (sumSq a1 != 0) && (sumSq a2 != 0) &&
    decide (0 ≤ dotProd a1 a2) &&
    decide (361 * (sumSq a1 * sumSq a2) ≤ 400 * (dotProd a1 a2 * dotProd a1 a2))
  | _, _ => false

/-- The guard conditions of `_cosineSimilarity` under which the claim says 0 is
returned, written from the claim's words: an absent input, an input that does
not unwrap to an array, a length mismatch, or a zero magnitude. -/
def CosGuardZero (v1 v2 : Option EmbeddingInput) : Prop :=
  v1 = none ∨ v2 = none
  ∨ v1.bind unwrapArr = none ∨ v2.bind unwrapArr = none
  ∨ (∃ a1 a2, v1.bind unwrapArr = some a1 ∧ v2.bind unwrapArr = some a2
      ∧ (a1.length ≠ a2.length ∨ sumSq a1 = 0 ∨ sumSq a2 = 0))

/-! ## Memory records and the consolidation passes -/

/-- The fields of a memory record that the consolidation service reads.
Timestamps carry the Firestore `_seconds` value. -/
structure Memory where
  id : String
  timesRetrieved : ℚ := 0
  successRate : Option ℚ := none
  timesUsedInSuccess : Option ℚ := none
  timesUsedInFailure : Option ℚ := none
  createdAt : Option ℚ := none
  updatedAt : Option ℚ := none
  embedding : Option EmbeddingInput := none
deriving DecidableEq, Repr

/-- The prune filter of `pruneLowQualityMemories`
(src/services/memoryConsolidation.js lines 83-87):
`timesRetrieved >= 10 && successRate !== null && successRate < 0.3`. -/
def prunePred (m : Memory) : Bool :=
  decide (10 ≤ m.timesRetrieved) &&
  (match m.successRate with
   | some r => decide (r < 3/10)
   | none => false)

/-- The prune predicate as the claim states it. -/
def ClaimPrunable (m : Memory) : Prop :=
  10 ≤ m.timesRetrieved ∧ ∃ r, m.successRate = some r ∧ r < 3/10

instance : DecidablePred ClaimPrunable := fun m => by
  unfold ClaimPrunable
  cases h : m.successRate with
  | none => exact isFalse (by simp [h])
  | some r => exact decidable_of_iff (10 ≤ m.timesRetrieved ∧ r < 3/10) (by simp [h])

/-- `MemoryConsolidation.pruneLowQualityMemories`
(src/services/memoryConsolidation.js lines 78-114): selects the records
matching `prunePred`, attempts `deleteMemory` on each (`delOk` gives each
attempt's outcome; a failure is logged and skipped), and returns
`toPrune.length`. The first component is the trace of delete attempts. -/
def pruneLowQualityMemories (ms : List Memory) (delOk : String → Bool) :
    List (String × Bool) × ℕ :=
  let toPrune := ms.filter prunePred
  (toPrune.map (fun m => (m.id, delOk m.id)), toPrune.length)

/-- JS comparison `a.successRate > b.successRate` where a `null` rate is
coerced to the number 0. -/
def jsRateGT (a b : Option ℚ) : Bool := decide (b.getD 0 < a.getD 0)

/-- The keep/remove decision of the merge pass
(src/services/memoryConsolidation.js lines 162-173): higher `successRate`
wins; on a tie (after `null` coerces to 0) the record with
`timesRetrieved >= ` the other's wins, i.e. the pair's first record wins
exact ties. Returns `(keep, remove)`. -/
def mergeWinner (m1 m2 : Memory) : Memory × Memory :=
  if jsRateGT m1.successRate m2.successRate then (m1, m2)
  else if jsRateGT m2.successRate m1.successRate then (m2, m1)
  else if m2.timesRetrieved ≤ m1.timesRetrieved then (m1, m2) else (m2, m1)

/-- Candidate test for a pair in the duplicate scan: both records have a
(truthy) embedding and the cosine similarity reaches the 0.95 threshold. -/
def pairQualifies (m1 m2 : Memory) : Bool :=
  match m1.embedding, m2.embedding with
  | some e1, some e2 => simGE095 e1 e2
  | _, _ => false

/-- The nested scan of `detectAndMergeDuplicates`
(src/services/memoryConsolidation.js lines 127-147): every pair `(i, j)`
with `i < j`, in lexicographic scan order, kept when `pairQualifies`. -/
def duplicatePairsFrom : List Memory → List (Memory × Memory)
  | [] => []
  | m :: rest =>
    ((rest.filter (fun x => pairQualifies m x)).map (fun x => (m, x)))
      ++ duplicatePairsFrom rest

/-- One merge step's writes: the winner update and the loser deletion
(src/services/memoryConsolidation.js lines 176-189). -/
structure MergeAction where
  keep : Memory
  remove : Memory
  mergedTimesRetrieved : ℚ
  mergedTimesSuccessful : ℚ
  mergedTimesFailure : ℚ
  newSuccessRate : Option ℚ
deriving DecidableEq, Repr

/-- Builds the merge action of one candidate pair. -/
def mergePair (p : Memory × Memory) : MergeAction :=
  let kr := mergeWinner p.1 p.2
  let mtr := kr.1.timesRetrieved + kr.2.timesRetrieved
  let ms := kr.1.timesUsedInSuccess.getD 0 + kr.2.timesUsedInSuccess.getD 0
  let mf := kr.1.timesUsedInFailure.getD 0 + kr.2.timesUsedInFailure.getD 0
  { keep := kr.1, remove := kr.2, mergedTimesRetrieved := mtr,
    mergedTimesSuccessful := ms, mergedTimesFailure := mf,
    newSuccessRate := if 0 < ms + mf then some (ms / (ms + mf)) else none }

/-- `MemoryConsolidation.detectAndMergeDuplicates`
(src/services/memoryConsolidation.js lines 120-213): processes the candidate
pairs in scan order; each pair updates the winner and deletes the loser
(`updOk`/`delOk` give the repository outcomes; a failing pair is logged and
skipped and does not increment `mergedCount`). Returns the action list and
`mergedCount`. -/
def detectAndMergeDuplicates (ms : List Memory) (updOk delOk : String → Bool) :
    List MergeAction × ℕ :=
  let actions := (duplicatePairsFrom ms).map mergePair
  (actions, (actions.filter (fun a => updOk a.keep.id && delOk a.remove.id)).length)

/-- Staleness test of `archiveStaleMemories`
(src/services/memoryConsolidation.js lines 226-237): skip records with
neither timestamp; otherwise `updatedAt` (fallback `createdAt`), in
milliseconds, must lie before `now - 90 days`. -/
def isStale (nowMs : ℚ) (m : Memory) : Bool :=
  match m.updatedAt, m.createdAt with
  | none, none => false
  | some u, _ => decide (u * 1000 < nowMs - 90 * 24 * 60 * 60 * 1000)
  | none, some c => decide (c * 1000 < nowMs - 90 * 24 * 60 * 60 * 1000)

/-- `MemoryConsolidation.archiveStaleMemories`
(src/services/memoryConsolidation.js lines 219-266): archives each stale
record (failures logged and skipped) and returns `staleMemories.length`. -/
def archiveStaleMemories (ms : List Memory) (nowMs : ℚ) (archOk : String → Bool) :
    List (String × Bool) × ℕ :=
  let stale := ms.filter (isStale nowMs)
  (stale.map (fun m => (m.id, archOk m.id)), stale.length)

/-- The statistics object assembled by `consolidate` (wall-clock time fields
omitted). -/
structure ConsolidationStats where
  totalMemories : ℕ
  pruned : ℕ
  merged : ℕ
  archived : ℕ
  success : Bool
  errors : List String
deriving DecidableEq, Repr

/-- Outcome of `consolidate`: a returned stats object, or a rethrown error
together with the stats object as it stood at the throw (the catch block
pushes the error and sets `success = false` before rethrowing). -/
inductive ConsolidateOutcome where
  | ok (stats : ConsolidationStats)
  | thrown (err : String) (stats : ConsolidationStats)
deriving DecidableEq, Repr

/-- `MemoryConsolidation.consolidate`
(src/services/memoryConsolidation.js lines 24-72). The four `getAllMemories`
calls (initial count, then one per pass) are environment outcomes
`scan0..scan3`; any failure is caught by the top-level catch, which records
the error, sets `success = false` and **rethrows**. -/
def consolidate (scan0 scan1 scan2 scan3 : Except String (List Memory))
    (delOk updOk delOk2 archOk : String → Bool) (nowMs : ℚ) : ConsolidateOutcome :=
  match scan0 with
  | .error e => .thrown e ⟨0, 0, 0, 0, false, [e]⟩
  | .ok before =>
    match scan1 with
    | .error e => .thrown e ⟨before.length, 0, 0, 0, false, [e]⟩
    | .ok ms1 =>
      let pruned := (pruneLowQualityMemories ms1 delOk).2
      match scan2 with
      | .error e => .thrown e ⟨before.length, pruned, 0, 0, false, [e]⟩
      | .ok ms2 =>
        let merged := (detectAndMergeDuplicates ms2 updOk delOk2).2
        match scan3 with
        | .error e => .thrown e ⟨before.length, pruned, merged, 0, false, [e]⟩
        | .ok ms3 =>
          let archived := (archiveStaleMemories ms3 nowMs archOk).2
          .ok ⟨before.length, pruned, merged, archived, true, []⟩

/-! ## Parallel scaling (`parallelScaling`) -/

/-- The scored wrapper built for each variant
(src/services/memoryTestTimeScaling.js lines 73-97): a successful executor
call yields its result, success flag and score; a thrown call yields
`result = null, success = false, score = 0`. -/
structure Trajectory where
  index : ℕ
  result : Option TrajResult
  success : Bool
  score : ℚ
deriving DecidableEq, Repr

instance : Inhabited Trajectory := ⟨⟨0, none, false, 0⟩⟩

/-- Trajectory of variant `i`; `exec i = none` models the executor throwing. -/
def mkTrajectory (exec : ℕ → Option TrajResult) (i : ℕ) : Trajectory :=
  match exec i with
  | some r => ⟨i, some r, r.success, scoreTrajectory (some r)⟩
  | none => ⟨i, none, false, 0⟩

/-- The `Promise.all` result: one trajectory per variant, in launch order. -/
def trajectoriesOf (n : ℕ) (exec : ℕ → Option TrajResult) : List Trajectory :=
  (List.range n).map (mkTrajectory exec)

/-- JS `array.reduce((best, current) => current.score > best.score ? current : best)`
with no initial value: `none` on the empty array, else a left fold started at
the head. -/
def jsReduceBest : List Trajectory → Option Trajectory
  | [] => none
  | h :: t => some (t.foldl (fun best current =>
      if best.score < current.score then current else best) h)

/-- What an invocation of `parallelScaling` does: a single fallback call
`execute(task, [])` whose outcome is passed through raw, a normal run
returning the selected trajectory's raw result, or a crash (`TypeError`
when `numVariants ≤ 0` with retrieved memories present). -/
inductive ParallelOutcome where
  | fallback (r : Option TrajResult)
  | normal (r : Option TrajResult)
  | crash
deriving DecidableEq, Repr

/-- `MemoryTestTimeScaling.parallelScaling`
(src/services/memoryTestTimeScaling.js lines 32-131), after the memories
have been retrieved: flag check, empty-retrieval fallback, round-robin
fan-out of `numVariants` trajectories, selection of the best successful
trajectory (first variant's result when none succeeded). `execEmpty` is the
outcome of the single fallback call `execute(task, [])`. -/
def parallelScaling (enabled : Bool) (retrieved : List Memory) (numVariants : ℤ)
    (exec : ℕ → Option TrajResult) (execEmpty : Option TrajResult) : ParallelOutcome :=
  if !enabled then .fallback execEmpty
  else if retrieved.isEmpty then .fallback execEmpty
  else if numVariants ≤ 0 then .crash
  else
    let trajectories := trajectoriesOf numVariants.toNat exec
    let successfulTrajectories := trajectories.filter (fun t => t.success)
    match jsReduceBest successfulTrajectories with
    | some best => .normal best.result
    | none => .normal trajectories.headI.result

/-- Modelled from the spec: the `reasoningMemory` repository model
(`src/models/reasoningMemory.js`) is not among the sources; per spec §4.3
`retrieveByEmbedding(query, k, filters)` returns "up to k records" (property
P1: `|R| ≤ k`), so a non-positive limit yields no records. -/
def RetrieveContract (retrieve : ℤ → List Memory) : Prop :=
  ∀ k : ℤ, ((retrieve k).length : ℤ) ≤ max k 0

/-- `parallelScaling` including the retrieval step: the code asks the
repository for `numVariants * 3` memories and proceeds with the returned
list. -/
def parallelScalingFull (enabled : Bool) (retrieve : ℤ → List Memory)
    (numVariants : ℤ) (exec : ℕ → Option TrajResult) (execEmpty : Option TrajResult) :
    ParallelOutcome :=
  parallelScaling enabled (retrieve (numVariants * 3)) numVariants exec execEmpty

/-! ## Sequential scaling (`sequentialScaling`) -/

/-- Outcome of one `reflectFunction` call: it threw, it returned a falsy
value or `shouldRefine` false, or it asked for refinement. -/
inductive ReflectStep where
  | err
  | noRefine
  | refine
deriving DecidableEq, Repr

/-- The best-so-far update of the sequential loop
(src/services/memoryTestTimeScaling.js lines 184-187):
`if (score > bestScore) { bestResult = result; bestScore = score; }`. -/
def bestStep (acc : Option TrajResult × ℚ) (r : TrajResult) : Option TrajResult × ℚ :=
  if acc.2 < scoreTrajectory (some r) then (some r, scoreTrajectory (some r)) else acc

/-- The refinement loop of `sequentialScaling`
(src/services/memoryTestTimeScaling.js lines 161-230). `k` is the iteration
index, `fuel` the remaining iterations; returns the final `bestResult`
together with the trace of executor results in call order. `exec k` is the
result of the k-th `execute` call, `reflect` the reflector (absent = the JS
`null` reflector). -/
def seqLoop (exec : ℕ → TrajResult) (reflect : Option (ℕ → ReflectStep)) :
    ℕ → ℕ → Option TrajResult × ℚ → Option TrajResult × List TrajResult
  | _, 0, acc => (acc.1, [])
  | k, fuel + 1, acc =>
    let r := exec k
    let acc' := bestStep acc r
    if r.success && decide (9/10 < scoreTrajectory (some r)) then (acc'.1, [r])
    else
      match reflect with
      | some f =>
        match f k with
        | .refine =>
          let rest := seqLoop exec reflect (k + 1) fuel acc'
          (rest.1, r :: rest.2)
        | _ => (acc'.1, [r])
      | none =>
        if r.success then (acc'.1, [r])
        else
          let rest := seqLoop exec reflect (k + 1) fuel acc'
          (rest.1, r :: rest.2)

/-- The enabled path of `sequentialScaling`: loop from iteration 0 with
`bestResult = null, bestScore = 0`. -/
def sequentialScalingRun (exec : ℕ → TrajResult) (reflect : Option (ℕ → ReflectStep))
    (maxIterations : ℕ) : Option TrajResult × List TrajResult :=
  seqLoop exec reflect 0 maxIterations (none, 0)

/-- What an invocation of `sequentialScaling` does. -/
inductive SequentialOutcome where
  | fallback (r : TrajResult)
  | normal (r : Option TrajResult)
deriving DecidableEq, Repr

/-- `MemoryTestTimeScaling.sequentialScaling`
(src/services/memoryTestTimeScaling.js lines 141-243). -/
def sequentialScaling (enabled : Bool) (exec : ℕ → TrajResult)
    (reflect : Option (ℕ → ReflectStep)) (maxIterations : ℕ)
    (execEmpty : TrajResult) : SequentialOutcome :=
  if !enabled then .fallback execEmpty
  else .normal (sequentialScalingRun exec reflect maxIterations).1

/-! ## Build memory extraction (`extractFromBuildFailure`) -/

/-- The build result field read by the early-exit check. -/
structure BuildResult where
  status : String
deriving DecidableEq, Repr

/-- External capabilities `extractFromBuildFailure` can invoke. -/
inductive ExtCall where
  | textGen
  | embedCall
  | storeCall
deriving DecidableEq, Repr

/-- The external calls `_storeMemory` makes for one candidate
(src/services/memoryConsolidation.js, BuildMemoryService): nothing when the
validator rejects it, an embedding call (and, when the embedding validates,
a repository add) otherwise. -/
def storeMemoryCalls (valid embedValid : String → Bool) (c : String) : List ExtCall :=
  if !valid c then []
  else if !embedValid c then [.embedCall]
  else [.embedCall, .storeCall]

/-- `BuildMemoryService.extractFromBuildFailure`
(src/services/memoryConsolidation.js lines 461-534): immediate empty return
for a successful build; otherwise one text-generation call (`gen` is its
parsed outcome; a top-level failure is caught and yields `[]`), then the
per-candidate store pipeline; the parsed candidate list is returned. -/
def extractFromBuildFailure (br : BuildResult) (gen : Except String (List String))
    (valid embedValid : String → Bool) : List String × List ExtCall :=
  if br.status = "SUCCESS" then ([], [])
  else
    match gen with
    | .error _ => ([], [.textGen])
    | .ok candidates =>
      (candidates, .textGen :: candidates.flatMap (storeMemoryCalls valid embedValid))


theorem prunePred_iff_ClaimPrunable (m : Memory) : prunePred m = true ↔ ClaimPrunable m := by
  unfold prunePred ClaimPrunable
  cases h : m.successRate <;> simp [h]

/-- Claim C3: in the prune pass a record is selected for deletion iff
`timesRetrieved ≥ 10` and `successRate` is non-null and `< 0.3`; a per-record
deletion failure is skipped (the attempted deletions and the returned count do
not depend on the deletion outcomes), and the returned count equals the number
of records meeting the predicate. -/
theorem claim_C3_prune (ms : List Memory) (delOk delOk2 : String → Bool) (m : Memory) :
    (prunePred m = true ↔ ClaimPrunable m)
    ∧ (pruneLowQualityMemories ms delOk).1
        = (ms.filter prunePred).map (fun x => (x.id, delOk x.id))
    ∧ (pruneLowQualityMemories ms delOk).2
        = (ms.filter (fun x => decide (ClaimPrunable x))).length
    ∧ (pruneLowQualityMemories ms delOk).2 = (pruneLowQualityMemories ms delOk2).2 := by
  refine ⟨prunePred_iff_ClaimPrunable m, rfl, ?_, rfl⟩
  show (ms.filter prunePred).length = (ms.filter (fun x => decide (ClaimPrunable x))).length
  congr 1
  apply List.filter_congr
  intro x _
  rw [Bool.eq_iff_iff]
  simp [prunePred_iff_ClaimPrunable]

theorem scoreTrajectory_some (x : TrajResult) :
    scoreTrajectory (some x) =
      if x.success = false then 0
      else
        min (1/2
          + (if jsStepsBonus x.steps then 2/10 else 0)
          + (if jsTimeBonus x.executionTime then 1/10 else 0)
          + (if jsOutputBonus x.outputDataKeys then 1/10 else 0)
          + (if jsHtmlBonus x.htmlReportLen then 1/10 else 0)) 1 := rfl

/-- Claim C7 (amended): the trajectory score is 0 for a null or unsuccessful
result; otherwise it is 0.5, plus 0.2 when `steps` is present, nonzero and
< 10, plus 0.1 when `executionTime` is present, nonzero and < 5000, plus 0.1
when `outputData` is present with more than 5 keys, plus 0.1 when `htmlReport`
is present with length > 1000, clamped to 1; the score is always in [0, 1]. -/
theorem claim_C7_scorer (r : Option TrajResult) :
    scoreTrajectory r = claimScore r
    ∧ 0 ≤ scoreTrajectory r ∧ scoreTrajectory r ≤ 1 := by
  have hs : ∀ o : Option ℚ, jsStepsBonus o = o.any (fun s => s != 0 && decide (s < 10)) := by
    intro o; cases o <;> rfl
  have ht : ∀ o : Option ℚ, jsTimeBonus o = o.any (fun t => t != 0 && decide (t < 5000)) := by
    intro o; cases o <;> rfl
  have ho : ∀ o : Option ℕ, jsOutputBonus o = o.any (fun k => decide (5 < k)) := by
    intro o; cases o <;> rfl
  have hh : ∀ o : Option ℕ, jsHtmlBonus o = o.any (fun n => n != 0 && decide (1000 < n)) := by
    intro o; cases o <;> rfl
  refine ⟨?_, ?_, ?_⟩
  · cases r with
    | none => rfl
    | some x => rw [scoreTrajectory_some]; unfold claimScore; rw [hs, ht, ho, hh]
  · cases r with
    | none => norm_num [scoreTrajectory]
    | some x =>
      rw [scoreTrajectory_some]
      by_cases h : x.success = false
      · simp [h]
      · rw [if_neg h]
        apply le_min _ (by norm_num)
        have h1 : (0:ℚ) ≤ if jsStepsBonus x.steps then 2/10 else 0 := by split <;> norm_num
        have h2 : (0:ℚ) ≤ if jsTimeBonus x.executionTime then 1/10 else 0 := by split <;> norm_num
        have h3 : (0:ℚ) ≤ if jsOutputBonus x.outputDataKeys then 1/10 else 0 := by
          split <;> norm_num
        have h4 : (0:ℚ) ≤ if jsHtmlBonus x.htmlReportLen then 1/10 else 0 := by split <;> norm_num
        linarith
  · cases r with
    | none => norm_num [scoreTrajectory]
    | some x =>
      rw [scoreTrajectory_some]
      by_cases h : x.success = false
      · simp [h]
      · rw [if_neg h]; exact min_le_right _ _

/-- Claim C7 counterexample: at a successful result whose `steps` field is
present and equal to 0 (present and < 10, so the claim predicts 0.5 + 0.2),
the code scores 0.5 — JS truthiness skips the bonus for `steps = 0`. -/
theorem claim_C7_counterexample :
    scoreTrajectory (some ⟨true, some 0, none, none, none⟩) = 1/2
    ∧ (1/2 : ℚ) ≠ 1/2 + 2/10 := by
  constructor
  · norm_num [scoreTrajectory, jsStepsBonus, jsTimeBonus, jsOutputBonus, jsHtmlBonus]
  · norm_num

/-- Claim C4 counterexample: a record with null `successRate` does **not**
lose to one with the non-null rate 0 (the pair ties after null coerces to 0
and the first record wins on `timesRetrieved`), and on a full tie the pair's
first record wins even when the second has the older `createdAt`. -/
theorem claim_C4_counterexample :
    ((mergeWinner ⟨"A", 10, none, none, none, none, none, none⟩
                  ⟨"B", 5, some 0, none, none, none, none, none⟩).1.id = "A")
    ∧ ((mergeWinner ⟨"C", 5, some (1/2), none, none, some 200, none, none⟩
                    ⟨"D", 5, some (1/2), none, none, some 100, none, none⟩).1.id = "C") := by
  constructor <;> norm_num [mergeWinner, jsRateGT]

/-- Claim C4 (amended): the merge winner is the record with the strictly
higher `successRate` after a null rate coerces to 0 (so null loses to any
positive rate but ties with rate 0); on tied coerced rates the record with
`timesRetrieved` ≥ the other's wins, the pair's first record winning exact
ties; `createdAt` is never consulted. -/
theorem claim_C4_merge_winner (m1 m2 : Memory) :
    (mergeWinner m1 m2 = (m1, m2) ∨ mergeWinner m1 m2 = (m2, m1))
    ∧ (mergeWinner m1 m2).2.successRate.getD 0 ≤ (mergeWinner m1 m2).1.successRate.getD 0
    ∧ (m2.successRate.getD 0 < m1.successRate.getD 0 → mergeWinner m1 m2 = (m1, m2))
    ∧ (m1.successRate.getD 0 < m2.successRate.getD 0 → mergeWinner m1 m2 = (m2, m1))
    ∧ (m1.successRate.getD 0 = m2.successRate.getD 0 →
        mergeWinner m1 m2
          = if m2.timesRetrieved ≤ m1.timesRetrieved then (m1, m2) else (m2, m1))
    ∧ (∀ q, m1.successRate = none → m2.successRate = some q → 0 < q →
        mergeWinner m1 m2 = (m2, m1)) := by
  unfold mergeWinner jsRateGT
  rcases lt_trichotomy (m1.successRate.getD 0) (m2.successRate.getD 0) with h | h | h
  · rw [if_neg (by simpa using not_lt.mpr h.le), if_pos (by simpa using h)]
    refine ⟨Or.inr rfl, h.le, fun hc => absurd hc (not_lt.mpr h.le), fun _ => rfl,
      fun hc => absurd hc h.ne, fun q h1 h2 _ => rfl⟩
  · rw [if_neg (by simpa using not_lt.mpr h.le), if_neg (by simpa using not_lt.mpr h.symm.le)]
    constructor
    · split
      · exact Or.inl rfl
      · exact Or.inr rfl
    refine ⟨?_, fun hc => absurd hc (not_lt.mpr h.le), fun hc => absurd hc (not_lt.mpr h.symm.le),
      fun _ => rfl, fun q h1 h2 hq => ?_⟩
    · split <;> simp [h]
    · rw [h1, h2] at h; simp at h; linarith
  · rw [if_pos (by simpa using h)]
    refine ⟨Or.inl rfl, h.le, fun _ => rfl, fun hc => absurd hc (not_lt.mpr h.le),
      fun hc => absurd hc h.ne.symm, fun q h1 h2 hq => ?_⟩
    rw [h1, h2] at h
    simp at h
    linarith

/-- Claim C9 counterexample: when the initial scan fails, `consolidate` does
not return a Stats object — it records `success = false` with the error in
`stats.errors` and rethrows. -/
theorem claim_C9_counterexample :
    consolidate (.error "Database connection failed") (.ok []) (.ok []) (.ok [])
        (fun _ => true) (fun _ => true) (fun _ => true) (fun _ => true) 0
      = .thrown "Database connection failed"
          ⟨0, 0, 0, 0, false, ["Database connection failed"]⟩ := rfl

/-- Claim C9 (amended): when the initial scan fails, `consolidate` records
`success = false` with the error captured in `stats.errors` and **rethrows**
(no Stats object is returned); when no step fails it returns Stats with
`success = true` and the pruned, merged and archived counts of the three
passes. -/
theorem claim_C9_consolidate (scan0 scan1 scan2 scan3 : Except String (List Memory))
    (delOk updOk delOk2 archOk : String → Bool) (nowMs : ℚ) :
    (∀ e, scan0 = .error e →
      consolidate scan0 scan1 scan2 scan3 delOk updOk delOk2 archOk nowMs
        = .thrown e ⟨0, 0, 0, 0, false, [e]⟩)
    ∧ (∀ ms0 ms1 ms2 ms3, scan0 = .ok ms0 → scan1 = .ok ms1 → scan2 = .ok ms2 →
        scan3 = .ok ms3 →
        consolidate scan0 scan1 scan2 scan3 delOk updOk delOk2 archOk nowMs
          = .ok ⟨ms0.length,
              (pruneLowQualityMemories ms1 delOk).2,
              (detectAndMergeDuplicates ms2 updOk delOk2).2,
              (archiveStaleMemories ms3 nowMs archOk).2,
              true, []⟩) := by
  constructor
  · intro e he
    rw [he]
    rfl
  · intro ms0 ms1 ms2 ms3 h0 h1 h2 h3
    rw [h0, h1, h2, h3]
    rfl

/-- Claim C10: for a build result with status `SUCCESS`,
`extractFromBuildFailure` returns the empty list immediately, invoking neither
the text-generation capability, the embedder, nor the repository; for any
other status the text-generation capability is invoked. -/
theorem claim_C10_success_skips (br : BuildResult) (gen : Except String (List String))
    (valid embedValid : String → Bool) :
    (br.status = "SUCCESS" →
      extractFromBuildFailure br gen valid embedValid = ([], []))
    ∧ (br.status ≠ "SUCCESS" →
      ExtCall.textGen ∈ (extractFromBuildFailure br gen valid embedValid).2) := by
  constructor
  · intro h
    unfold extractFromBuildFailure
    rw [if_pos h]
  · intro h
    unfold extractFromBuildFailure
    rw [if_neg h]
    cases gen with
    | error e => simp
    | ok cs => simp

theorem claim_C10_witness :
    extractFromBuildFailure ⟨"SUCCESS"⟩ (.ok ["candidate"]) (fun _ => true) (fun _ => true)
      = ([], [])
    ∧ ExtCall.textGen ∈
        (extractFromBuildFailure ⟨"FAILURE"⟩ (.ok ["candidate"]) (fun _ => true)
          (fun _ => true)).2 :=
  ⟨(claim_C10_success_skips ⟨"SUCCESS"⟩ (.ok ["candidate"]) (fun _ => true) (fun _ => true)).1 rfl,
   (claim_C10_success_skips ⟨"FAILURE"⟩ (.ok ["candidate"]) (fun _ => true) (fun _ => true)).2
     (by decide)⟩

theorem seqLoop_length_le (exec : ℕ → TrajResult) (reflect : Option (ℕ → ReflectStep)) :
    ∀ (fuel k : ℕ) (acc : Option TrajResult × ℚ),
      (seqLoop exec reflect k fuel acc).2.length ≤ fuel := by
  intro fuel
  induction fuel with
  | zero => intro k acc; simp [seqLoop]
  | succ n ih =>
    intro k acc
    simp only [seqLoop]
    by_cases hb : (exec k).success && decide (9/10 < scoreTrajectory (some (exec k)))
    · simp [hb]
    · rw [if_neg hb]
      cases reflect with
      | none =>
        by_cases hs : (exec k).success
        · simp [hs]
        · simp only [if_neg hs, List.length_cons]
          exact Nat.succ_le_succ (ih (k + 1) _)
      | some f =>
        dsimp only
        cases hf : f k with
        | refine =>
          dsimp only
          simp only [List.length_cons]
          exact Nat.succ_le_succ (ih (k + 1) _)
        | err => simp
        | noRefine => simp

theorem seqLoop_best_eq_fold (exec : ℕ → TrajResult) (reflect : Option (ℕ → ReflectStep)) :
    ∀ (fuel k : ℕ) (acc : Option TrajResult × ℚ),
      (seqLoop exec reflect k fuel acc).1
        = ((seqLoop exec reflect k fuel acc).2.foldl bestStep acc).1 := by
  intro fuel
  induction fuel with
  | zero => intro k acc; simp [seqLoop]
  | succ n ih =>
    intro k acc
    simp only [seqLoop]
    by_cases hb : (exec k).success && decide (9/10 < scoreTrajectory (some (exec k)))
    · simp [hb]
    · rw [if_neg hb]
      cases reflect with
      | none =>
        by_cases hs : (exec k).success
        · simp [hs]
        · simp only [if_neg hs, List.foldl_cons]
          exact ih (k + 1) _
      | some f =>
        dsimp only
        cases hf : f k with
        | refine =>
          dsimp only
          simp only [List.foldl_cons]
          exact ih (k + 1) _
        | err => simp [List.foldl]
        | noRefine => simp [List.foldl]
theorem foldl_bestStep_spec :
    ∀ (l : List TrajResult) (acc : Option TrajResult × ℚ),
      (l.foldl bestStep acc = acc
        ∧ ∀ (j : ℕ) (hj : j < l.length), scoreTrajectory (some (l.get ⟨j, hj⟩)) ≤ acc.2)
      ∨ (∃ (k : ℕ) (hk : k < l.length),
          l.foldl bestStep acc
            = (some (l.get ⟨k, hk⟩), scoreTrajectory (some (l.get ⟨k, hk⟩)))
          ∧ acc.2 < scoreTrajectory (some (l.get ⟨k, hk⟩))
          ∧ (∀ (j : ℕ) (hj : j < l.length),
              scoreTrajectory (some (l.get ⟨j, hj⟩)) ≤ scoreTrajectory (some (l.get ⟨k, hk⟩)))
          ∧ (∀ (j : ℕ) (hj : j < l.length), j < k →
              scoreTrajectory (some (l.get ⟨j, hj⟩)) < scoreTrajectory (some (l.get ⟨k, hk⟩)))) := by
  intro l
  induction l with
  | nil =>
    intro acc
    left
    exact ⟨rfl, fun j hj => absurd hj (Nat.not_lt_zero j)⟩
  | cons r t ih =>
    intro acc
    rw [List.foldl_cons]
    by_cases h : acc.2 < scoreTrajectory (some r)
    · have hstep : bestStep acc r = (some r, scoreTrajectory (some r)) := by
        unfold bestStep; rw [if_pos h]
      rw [hstep]
      rcases ih (some r, scoreTrajectory (some r)) with ⟨heq, hbound⟩ | ⟨k, hk, heq, hlt, hmax, hfirst⟩
      · right
        refine ⟨0, Nat.succ_pos _, by rw [heq]; rfl, h, ?_, ?_⟩
        · intro j hj
          cases j with
          | zero => simp
          | succ j' =>
            have := hbound j' (Nat.lt_of_succ_lt_succ hj)
            simpa using this
        · intro j hj hj0
          exact absurd hj0 (Nat.not_lt_zero j)
      · right
        refine ⟨k + 1, Nat.succ_lt_succ hk, ?_, ?_, ?_, ?_⟩
        · simpa using heq
        · calc acc.2 < scoreTrajectory (some r) := h
            _ < scoreTrajectory (some (t.get ⟨k, hk⟩)) := hlt
        · intro j hj
          cases j with
          | zero =>
            simpa using le_of_lt hlt
          | succ j' =>
            have := hmax j' (Nat.lt_of_succ_lt_succ hj)
            simpa using this
        · intro j hj hjk
          cases j with
          | zero => simpa using hlt
          | succ j' =>
            have := hfirst j' (Nat.lt_of_succ_lt_succ hj) (Nat.lt_of_succ_lt_succ hjk)
            simpa using this
    · have hstep : bestStep acc r = acc := by
        unfold bestStep; rw [if_neg h]
      rw [hstep]
      rcases ih acc with ⟨heq, hbound⟩ | ⟨k, hk, heq, hlt, hmax, hfirst⟩
      · left
        refine ⟨heq, ?_⟩
        intro j hj
        cases j with
        | zero => simpa using not_lt.mp h
        | succ j' =>
          have := hbound j' (Nat.lt_of_succ_lt_succ hj)
          simpa using this
      · right
        refine ⟨k + 1, Nat.succ_lt_succ hk, by simpa using heq, hlt, ?_, ?_⟩
        · intro j hj
          cases j with
          | zero =>
            have h0 : scoreTrajectory (some r) ≤ acc.2 := not_lt.mp h
            simpa using h0.trans hlt.le
          | succ j' =>
            have := hmax j' (Nat.lt_of_succ_lt_succ hj)
            simpa using this
        · intro j hj hjk
          cases j with
          | zero =>
            have h0 : scoreTrajectory (some r) ≤ acc.2 := not_lt.mp h
            simpa using h0.trans_lt hlt
          | succ j' =>
            have := hfirst j' (Nat.lt_of_succ_lt_succ hj) (Nat.lt_of_succ_lt_succ hjk)
            simpa using this
/-- Claim C2: with the feature enabled and `maxIterations = M`, the executor
is called at most `M` times (the trace lists the executor results in call
order), and whenever some iteration scored above the initial best of 0 the
returned value is the first trajectory attaining the maximum score across all
iterations — not necessarily the last. -/
theorem claim_C2_sequential (exec : ℕ → TrajResult) (reflect : Option (ℕ → ReflectStep))
    (maxIterations : ℕ) (execEmpty : TrajResult) :
    (sequentialScalingRun exec reflect maxIterations).2.length ≤ maxIterations
    ∧ sequentialScaling true exec reflect maxIterations execEmpty
        = .normal (sequentialScalingRun exec reflect maxIterations).1
    ∧ ((∃ r ∈ (sequentialScalingRun exec reflect maxIterations).2,
          0 < scoreTrajectory (some r)) →
        ∃ (k : ℕ) (hk : k < (sequentialScalingRun exec reflect maxIterations).2.length),
          (sequentialScalingRun exec reflect maxIterations).1
            = some ((sequentialScalingRun exec reflect maxIterations).2.get ⟨k, hk⟩)
          ∧ (∀ (j : ℕ) (hj : j < (sequentialScalingRun exec reflect maxIterations).2.length),
              scoreTrajectory (some ((sequentialScalingRun exec reflect maxIterations).2.get ⟨j, hj⟩))
                ≤ scoreTrajectory (some ((sequentialScalingRun exec reflect maxIterations).2.get ⟨k, hk⟩)))
          ∧ (∀ (j : ℕ) (hj : j < (sequentialScalingRun exec reflect maxIterations).2.length),
              j < k →
              scoreTrajectory (some ((sequentialScalingRun exec reflect maxIterations).2.get ⟨j, hj⟩))
                < scoreTrajectory (some ((sequentialScalingRun exec reflect maxIterations).2.get ⟨k, hk⟩)))) := by
  refine ⟨seqLoop_length_le exec reflect maxIterations 0 (none, 0), rfl, ?_⟩
  rintro ⟨r, hr, hpos⟩
  have hfold := seqLoop_best_eq_fold exec reflect maxIterations 0 (none, 0)
  rcases foldl_bestStep_spec (sequentialScalingRun exec reflect maxIterations).2 (none, 0)
    with ⟨heq, hbound⟩ | ⟨k, hk, heq, _, hmax, hfirst⟩
  · obtain ⟨⟨j, hj⟩, hget⟩ := List.mem_iff_get.mp hr
    have hle := hbound j hj
    rw [hget] at hle
    simp at hle
    linarith
  · refine ⟨k, hk, ?_, hmax, hfirst⟩
    have hf : (sequentialScalingRun exec reflect maxIterations).1
        = (List.foldl bestStep (none, 0) (sequentialScalingRun exec reflect maxIterations).2).1 :=
      hfold
    rw [hf, heq]
theorem foldl_jsBest_spec :
    ∀ (t : List Trajectory) (b : Trajectory),
      (t.foldl (fun best current => if best.score < current.score then current else best) b = b
        ∧ ∀ (j : ℕ) (hj : j < t.length), (t.get ⟨j, hj⟩).score ≤ b.score)
      ∨ (∃ (k : ℕ) (hk : k < t.length),
          t.foldl (fun best current => if best.score < current.score then current else best) b
            = t.get ⟨k, hk⟩
          ∧ b.score < (t.get ⟨k, hk⟩).score
          ∧ (∀ (j : ℕ) (hj : j < t.length), (t.get ⟨j, hj⟩).score ≤ (t.get ⟨k, hk⟩).score)
          ∧ (∀ (j : ℕ) (hj : j < t.length), j < k →
              (t.get ⟨j, hj⟩).score < (t.get ⟨k, hk⟩).score)) := by
  intro t
  induction t with
  | nil =>
    intro b
    left
    exact ⟨rfl, fun j hj => absurd hj (Nat.not_lt_zero j)⟩
  | cons c t ih =>
    intro b
    rw [List.foldl_cons]
    by_cases h : b.score < c.score
    · rw [if_pos h]
      rcases ih c with ⟨heq, hbound⟩ | ⟨k, hk, heq, hlt, hmax, hfirst⟩
      · right
        refine ⟨0, Nat.succ_pos _, by rw [heq]; rfl, h, ?_, ?_⟩
        · intro j hj
          cases j with
          | zero => simp
          | succ j' =>
            have := hbound j' (Nat.lt_of_succ_lt_succ hj)
            simpa using this
        · intro j hj hj0
          exact absurd hj0 (Nat.not_lt_zero j)
      · right
        refine ⟨k + 1, Nat.succ_lt_succ hk, by simpa using heq, h.trans hlt, ?_, ?_⟩
        · intro j hj
          cases j with
          | zero => simpa using le_of_lt hlt
          | succ j' =>
            have := hmax j' (Nat.lt_of_succ_lt_succ hj)
            simpa using this
        · intro j hj hjk
          cases j with
          | zero => simpa using hlt
          | succ j' =>
            have := hfirst j' (Nat.lt_of_succ_lt_succ hj) (Nat.lt_of_succ_lt_succ hjk)
            simpa using this
    · rw [if_neg h]
      rcases ih b with ⟨heq, hbound⟩ | ⟨k, hk, heq, hlt, hmax, hfirst⟩
      · left
        refine ⟨heq, ?_⟩
        intro j hj
        cases j with
        | zero => simpa using not_lt.mp h
        | succ j' =>
          have := hbound j' (Nat.lt_of_succ_lt_succ hj)
          simpa using this
      · right
        refine ⟨k + 1, Nat.succ_lt_succ hk, by simpa using heq, hlt, ?_, ?_⟩
        · intro j hj
          cases j with
          | zero => simpa using (not_lt.mp h).trans hlt.le
          | succ j' =>
            have := hmax j' (Nat.lt_of_succ_lt_succ hj)
            simpa using this
        · intro j hj hjk
          cases j with
          | zero => simpa using (not_lt.mp h).trans_lt hlt
          | succ j' =>
            have := hfirst j' (Nat.lt_of_succ_lt_succ hj) (Nat.lt_of_succ_lt_succ hjk)
            simpa using this

theorem jsReduceBest_spec (l : List Trajectory) (hne : l ≠ []) :
    ∃ (k : ℕ) (hk : k < l.length),
      jsReduceBest l = some (l.get ⟨k, hk⟩)
      ∧ (∀ (j : ℕ) (hj : j < l.length), (l.get ⟨j, hj⟩).score ≤ (l.get ⟨k, hk⟩).score)
      ∧ (∀ (j : ℕ) (hj : j < l.length), j < k →
          (l.get ⟨j, hj⟩).score < (l.get ⟨k, hk⟩).score) := by
  cases l with
  | nil => exact absurd rfl hne
  | cons h t =>
    simp only [jsReduceBest]
    rcases foldl_jsBest_spec t h with ⟨heq, hbound⟩ | ⟨k, hk, heq, hlt, hmax, hfirst⟩
    · refine ⟨0, Nat.succ_pos _, by rw [heq]; rfl, ?_, ?_⟩
      · intro j hj
        cases j with
        | zero => simp
        | succ j' =>
          have := hbound j' (Nat.lt_of_succ_lt_succ hj)
          simpa using this
      · intro j hj hj0
        exact absurd hj0 (Nat.not_lt_zero j)
    · refine ⟨k + 1, Nat.succ_lt_succ hk, by simpa using heq, ?_, ?_⟩
      · intro j hj
        cases j with
        | zero => simpa using le_of_lt hlt
        | succ j' =>
          have := hmax j' (Nat.lt_of_succ_lt_succ hj)
          simpa using this
      · intro j hj hjk
        cases j with
        | zero => simpa using hlt
        | succ j' =>
          have := hfirst j' (Nat.lt_of_succ_lt_succ hj) (Nat.lt_of_succ_lt_succ hjk)
          simpa using this
theorem mkTrajectory_index (exec : ℕ → Option TrajResult) (i : ℕ) :
    (mkTrajectory exec i).index = i := by
  unfold mkTrajectory; cases exec i <;> rfl

theorem mkTrajectory_result (exec : ℕ → Option TrajResult) (i : ℕ) :
    (mkTrajectory exec i).result = exec i := by
  unfold mkTrajectory; cases exec i <;> rfl

theorem mkTrajectory_score (exec : ℕ → Option TrajResult) (i : ℕ) :
    (mkTrajectory exec i).score = scoreTrajectory (exec i) := by
  unfold mkTrajectory; cases exec i <;> rfl

theorem trajectoriesOf_length (n : ℕ) (exec : ℕ → Option TrajResult) :
    (trajectoriesOf n exec).length = n := by
  simp [trajectoriesOf]

theorem trajectoriesOf_mem (n : ℕ) (exec : ℕ → Option TrajResult) (t : Trajectory) :
    t ∈ trajectoriesOf n exec ↔ ∃ i, i < n ∧ t = mkTrajectory exec i := by
  simp only [trajectoriesOf, List.mem_map, List.mem_range]
  constructor
  · rintro ⟨i, hi, rfl⟩; exact ⟨i, hi, rfl⟩
  · rintro ⟨i, hi, rfl⟩; exact ⟨i, hi, rfl⟩

theorem trajectoriesOf_pairwise (n : ℕ) (exec : ℕ → Option TrajResult) :
    (trajectoriesOf n exec).Pairwise (fun a b => a.index < b.index) := by
  unfold trajectoriesOf
  refine List.Pairwise.map _ ?_ (List.pairwise_lt_range n)
  intro a b hab
  rw [mkTrajectory_index, mkTrajectory_index]
  exact hab
theorem parallelScaling_eq_best (retrieved : List Memory) (numVariants : ℤ)
    (exec : ℕ → Option TrajResult) (execEmpty : Option TrajResult) (best : Trajectory)
    (hr : retrieved ≠ []) (hN : 0 < numVariants)
    (hbest : jsReduceBest
        ((trajectoriesOf numVariants.toNat exec).filter (fun t => t.success)) = some best) :
    parallelScaling true retrieved numVariants exec execEmpty = .normal best.result := by
  unfold parallelScaling
  rw [if_neg (by simp), if_neg (by simp [List.isEmpty_iff, hr]),
    if_neg (by simpa using not_le.mpr hN)]
  dsimp only
  rw [hbest]

theorem parallelScaling_eq_first (retrieved : List Memory) (numVariants : ℤ)
    (exec : ℕ → Option TrajResult) (execEmpty : Option TrajResult)
    (hr : retrieved ≠ []) (hN : 0 < numVariants)
    (hbest : jsReduceBest
        ((trajectoriesOf numVariants.toNat exec).filter (fun t => t.success)) = none) :
    parallelScaling true retrieved numVariants exec execEmpty
      = .normal (trajectoriesOf numVariants.toNat exec).headI.result := by
  unfold parallelScaling
  rw [if_neg (by simp), if_neg (by simp [List.isEmpty_iff, hr]),
    if_neg (by simpa using not_le.mpr hN)]
  dsimp only
  rw [hbest]

theorem trajectoriesOf_headI (n : ℕ) (exec : ℕ → Option TrajResult) (hn : 0 < n) :
    (trajectoriesOf n exec).headI = mkTrajectory exec 0 := by
  obtain ⟨m, rfl⟩ : ∃ m, n = m + 1 := ⟨n - 1, by omega⟩
  unfold trajectoriesOf
  rw [List.range_succ_eq_map]
  rfl

/-- Claim C1: for every parallel-scaling invocation (feature enabled, memories
retrieved, `numVariants ≥ 1`) in which at least one trajectory result has
`success = true`, the returned value is the raw executor result of the
successful trajectory with the maximum score, ties broken by the lower variant
index; if no trajectory succeeded, the first variant's raw result (possibly
null) is returned. -/
theorem claim_C1_parallel_selection (retrieved : List Memory) (numVariants : ℤ)
    (exec : ℕ → Option TrajResult) (execEmpty : Option TrajResult)
    (hr : retrieved ≠ []) (hN : 0 < numVariants) :
    ((∃ i r, i < numVariants.toNat ∧ exec i = some r ∧ r.success = true) →
      ∃ i r, i < numVariants.toNat ∧ exec i = some r ∧ r.success = true
        ∧ parallelScaling true retrieved numVariants exec execEmpty
            = .normal (some r)
        ∧ (∀ j rj, j < numVariants.toNat → exec j = some rj → rj.success = true →
            scoreTrajectory (some rj) ≤ scoreTrajectory (some r)
            ∧ (scoreTrajectory (some rj) = scoreTrajectory (some r) → i ≤ j)))
    ∧ ((∀ i r, i < numVariants.toNat → exec i = some r → r.success = false) →
      parallelScaling true retrieved numVariants exec execEmpty = .normal (exec 0)) := by
  constructor
  · rintro ⟨i0, r0, hi0, he0, hs0⟩
    have hmem0 : mkTrajectory exec i0
        ∈ (trajectoriesOf numVariants.toNat exec).filter (fun t => t.success) := by
      rw [List.mem_filter]
      refine ⟨(trajectoriesOf_mem numVariants.toNat exec _).mpr ⟨i0, hi0, rfl⟩, ?_⟩
      unfold mkTrajectory
      rw [he0]
      exact hs0
    have hne : (trajectoriesOf numVariants.toNat exec).filter (fun t => t.success) ≠ [] :=
      fun h => by rw [h] at hmem0; exact absurd hmem0 (List.not_mem_nil _)
    obtain ⟨k, hk, heq, hmax, hfirst⟩ :=
      jsReduceBest_spec ((trajectoriesOf numVariants.toNat exec).filter (fun t => t.success)) hne
    have hRmem := List.get_mem
      ((trajectoriesOf numVariants.toNat exec).filter (fun t => t.success)) k hk
    have hRsplit := List.mem_filter.mp hRmem
    obtain ⟨i, hi, hRe⟩ := (trajectoriesOf_mem numVariants.toNat exec _).mp hRsplit.1
    have hRsuccess : (((trajectoriesOf numVariants.toNat exec).filter
        (fun t => t.success)).get ⟨k, hk⟩).success = true := by
      simpa using hRsplit.2
    cases hei : exec i with
    | none =>
      exfalso
      rw [hRe] at hRsuccess
      unfold mkTrajectory at hRsuccess
      rw [hei] at hRsuccess
      simp at hRsuccess
    | some r =>
      have hrs : r.success = true := by
        rw [hRe] at hRsuccess
        unfold mkTrajectory at hRsuccess
        rw [hei] at hRsuccess
        simpa using hRsuccess
      have hRres : (((trajectoriesOf numVariants.toNat exec).filter
          (fun t => t.success)).get ⟨k, hk⟩).result = some r := by
        rw [hRe, mkTrajectory_result, hei]
      have hRscore : (((trajectoriesOf numVariants.toNat exec).filter
          (fun t => t.success)).get ⟨k, hk⟩).score = scoreTrajectory (some r) := by
        rw [hRe, mkTrajectory_score, hei]
      refine ⟨i, r, hi, hei, hrs, ?_, ?_⟩
      · rw [parallelScaling_eq_best retrieved numVariants exec execEmpty _ hr hN heq, hRres]
      · intro j rj hj hej hsj
        have hTjmem : mkTrajectory exec j
            ∈ (trajectoriesOf numVariants.toNat exec).filter (fun t => t.success) := by
          rw [List.mem_filter]
          refine ⟨(trajectoriesOf_mem numVariants.toNat exec _).mpr ⟨j, hj, rfl⟩, ?_⟩
          unfold mkTrajectory
          rw [hej]
          exact hsj
        obtain ⟨⟨p, hp⟩, hgetp⟩ := List.mem_iff_get.mp hTjmem
        have hTjscore : (mkTrajectory exec j).score = scoreTrajectory (some rj) := by
          rw [mkTrajectory_score, hej]
        constructor
        · have hb := hmax p hp
          rw [hgetp, hTjscore, hRscore] at hb
          exact hb
        · intro hscore_eq
          have hkp : k ≤ p := by
            by_contra hcon
            push_neg at hcon
            have hb := hfirst p hp hcon
            rw [hgetp, hTjscore, hRscore, hscore_eq] at hb
            exact absurd hb (lt_irrefl _)
          rcases Nat.lt_or_ge k p with hkp' | hkp'
          · have hpair : ((trajectoriesOf numVariants.toNat exec).filter
                (fun t => t.success)).Pairwise (fun a b => a.index < b.index) :=
              (trajectoriesOf_pairwise numVariants.toNat exec).filter _
            have hidx := List.pairwise_iff_get.mp hpair ⟨k, hk⟩ ⟨p, hp⟩ hkp'
            rw [hgetp] at hidx
            rw [hRe, mkTrajectory_index] at hidx
            rw [mkTrajectory_index] at hidx
            exact le_of_lt hidx
          · have hkp'' : p = k := by omega
            subst hkp''
            have hRj : mkTrajectory exec i = mkTrajectory exec j := hRe ▸ hgetp
            have hij : i = j := by
              have h1 := congrArg Trajectory.index hRj
              rw [mkTrajectory_index, mkTrajectory_index] at h1
              exact h1
            omega
  · intro hall
    have hempty : (trajectoriesOf numVariants.toNat exec).filter (fun t => t.success) = [] := by
      rw [List.filter_eq_nil_iff]
      intro t ht
      obtain ⟨i, hi, rfl⟩ := (trajectoriesOf_mem numVariants.toNat exec t).mp ht
      cases hei : exec i with
      | none => unfold mkTrajectory; rw [hei]; simp
      | some r =>
        unfold mkTrajectory
        rw [hei]
        simpa using hall i r hi hei
    have hnone : jsReduceBest
        ((trajectoriesOf numVariants.toNat exec).filter (fun t => t.success)) = none := by
      rw [hempty]; rfl
    rw [parallelScaling_eq_first retrieved numVariants exec execEmpty hr hN hnone,
      trajectoriesOf_headI numVariants.toNat exec (by omega), mkTrajectory_result]
/-- Claim C8: when the requested variant count is ≤ 0, or the parallel feature
flag is disabled, or zero memories are retrieved, `parallelScaling` falls back
to exactly one `execute(task, [])` call and passes its result through. The
variant-count case relies on the spec-modelled `RetrieveContract` for the
repository model that is not among the sources. -/
theorem claim_C8_fallback (enabled : Bool) (retrieve : ℤ → List Memory) (numVariants : ℤ)
    (exec : ℕ → Option TrajResult) (execEmpty : Option TrajResult)
    (hc : RetrieveContract retrieve)
    (h : numVariants ≤ 0 ∨ enabled = false ∨ retrieve (numVariants * 3) = []) :
    parallelScalingFull enabled retrieve numVariants exec execEmpty
      = .fallback execEmpty := by
  unfold parallelScalingFull parallelScaling
  cases enabled with
  | false => rfl
  | true =>
    have hempty : retrieve (numVariants * 3) = [] := by
      rcases h with hN | hfl | he
      · have h1 := hc (numVariants * 3)
        have hmax : max (numVariants * 3) 0 ≤ 0 := max_le (by omega) le_rfl
        have h2 : (retrieve (numVariants * 3)).length = 0 := by
          have h3 := h1.trans hmax
          omega
        exact List.length_eq_zero.mp h2
      · exact absurd hfl (by simp)
      · exact he
    rw [if_neg (by simp), hempty]
    simp

theorem claim_C8_witness :
    RetrieveContract (fun _ => ([] : List Memory))
    ∧ parallelScalingFull true (fun _ => ([] : List Memory)) 0 (fun _ => none) none
        = .fallback none :=
  ⟨fun k => by simp,
   claim_C8_fallback true (fun _ => []) 0 (fun _ => none) none
     (fun k => by simp) (Or.inl le_rfl)⟩
theorem sumSq_nonneg (xs : List ℚ) : 0 ≤ sumSq xs := by
  unfold sumSq
  apply List.sum_nonneg
  intro a ha
  obtain ⟨b, _, rfl⟩ := List.mem_map.mp ha
  exact mul_self_nonneg b

theorem list_cauchy_schwarz :
    ∀ (xs ys : List ℚ), (dotProd xs ys) * (dotProd xs ys) ≤ sumSq xs * sumSq ys := by
  intro xs
  induction xs with
  | nil =>
    intro ys
    simp [dotProd, sumSq]
  | cons x xs ih =>
    intro ys
    cases ys with
    | nil =>
      simp only [dotProd, List.zipWith_nil_right, List.sum_nil, mul_zero, zero_mul]
      exact mul_nonneg (sumSq_nonneg _) (sumSq_nonneg _)
    | cons y ys =>
      have hd : dotProd (x :: xs) (y :: ys) = x * y + dotProd xs ys := by
        simp [dotProd]
      have hs1 : sumSq (x :: xs) = x * x + sumSq xs := by simp [sumSq]
      have hs2 : sumSq (y :: ys) = y * y + sumSq ys := by simp [sumSq]
      rw [hd, hs1, hs2]
      have hAB := ih ys
      have hA := sumSq_nonneg xs
      have hB := sumSq_nonneg ys
      by_cases hB0 : sumSq ys = 0
      · have hd0 : dotProd xs ys = 0 := by
          have h1 : dotProd xs ys * dotProd xs ys ≤ 0 := by
            rw [hB0] at hAB
            simpa using hAB
          have h2 := mul_self_nonneg (dotProd xs ys)
          exact mul_self_eq_zero.mp (le_antisymm h1 h2)
        rw [hB0, hd0]
        nlinarith [mul_nonneg hA (mul_self_nonneg y)]
      · have hBpos : 0 < sumSq ys := lt_of_le_of_ne hB (Ne.symm hB0)
        nlinarith [sq_nonneg (x * sumSq ys - y * dotProd xs ys),
          mul_nonneg hB (sub_nonneg.mpr hAB),
          mul_nonneg (mul_self_nonneg y) (sub_nonneg.mpr hAB), hBpos]
theorem cosineSimilarity_none_left (v2 : Option EmbeddingInput) :
    cosineSimilarity none v2 = 0 := by
  unfold cosineSimilarity
  rfl

theorem cosineSimilarity_none_right (v1 : Option EmbeddingInput) :
    cosineSimilarity v1 none = 0 := by
  cases v1 <;> rfl

theorem cosineSimilarity_some (w1 w2 : EmbeddingInput) :
    cosineSimilarity (some w1) (some w2)
      = match unwrapArr w1, unwrapArr w2 with
        | some a1, some a2 =>
          if a1.length ≠ a2.length then 0
          else if Real.sqrt ((sumSq a1 : ℚ) : ℝ) = 0 ∨ Real.sqrt ((sumSq a2 : ℚ) : ℝ) = 0 then 0
          else ((dotProd a1 a2 : ℚ) : ℝ)
            / (Real.sqrt ((sumSq a1 : ℚ) : ℝ) * Real.sqrt ((sumSq a2 : ℚ) : ℝ))
        | _, _ => 0 := by
  unfold cosineSimilarity
  rfl

theorem cosineSimilarity_unwrapped (w1 w2 : EmbeddingInput) (a1 a2 : List ℚ)
    (h1 : unwrapArr w1 = some a1) (h2 : unwrapArr w2 = some a2) :
    cosineSimilarity (some w1) (some w2)
      = if a1.length ≠ a2.length then 0
        else if Real.sqrt ((sumSq a1 : ℚ) : ℝ) = 0 ∨ Real.sqrt ((sumSq a2 : ℚ) : ℝ) = 0 then 0
        else ((dotProd a1 a2 : ℚ) : ℝ)
          / (Real.sqrt ((sumSq a1 : ℚ) : ℝ) * Real.sqrt ((sumSq a2 : ℚ) : ℝ)) := by
  rw [cosineSimilarity_some, h1, h2]

theorem cosineSimilarity_unwrap_fail_left (w1 w2 : EmbeddingInput)
    (h1 : unwrapArr w1 = none) :
    cosineSimilarity (some w1) (some w2) = 0 := by
  rw [cosineSimilarity_some, h1]

theorem cosineSimilarity_unwrap_fail_right (w1 w2 : EmbeddingInput)
    (h2 : unwrapArr w2 = none) :
    cosineSimilarity (some w1) (some w2) = 0 := by
  rw [cosineSimilarity_some, h2]
  cases unwrapArr w1 <;> rfl

theorem cosineSimilarity_main_bounds (w1 w2 : EmbeddingInput) (a1 a2 : List ℚ)
    (h1 : unwrapArr w1 = some a1) (h2 : unwrapArr w2 = some a2)
    (hlen : a1.length = a2.length) (hS1 : sumSq a1 ≠ 0) (hS2 : sumSq a2 ≠ 0) :
    cosineSimilarity (some w1) (some w2)
      = ((dotProd a1 a2 : ℚ) : ℝ)
        / (Real.sqrt ((sumSq a1 : ℚ) : ℝ) * Real.sqrt ((sumSq a2 : ℚ) : ℝ))
    ∧ -1 ≤ cosineSimilarity (some w1) (some w2)
    ∧ cosineSimilarity (some w1) (some w2) ≤ 1 := by
  have hS1pos : (0:ℝ) < ((sumSq a1 : ℚ) : ℝ) := by
    have h := lt_of_le_of_ne (sumSq_nonneg a1) (Ne.symm hS1)
    exact_mod_cast h
  have hS2pos : (0:ℝ) < ((sumSq a2 : ℚ) : ℝ) := by
    have h := lt_of_le_of_ne (sumSq_nonneg a2) (Ne.symm hS2)
    exact_mod_cast h
  have hsq1 : (0:ℝ) < Real.sqrt ((sumSq a1 : ℚ) : ℝ) := Real.sqrt_pos.mpr hS1pos
  have hsq2 : (0:ℝ) < Real.sqrt ((sumSq a2 : ℚ) : ℝ) := Real.sqrt_pos.mpr hS2pos
  have heq : cosineSimilarity (some w1) (some w2)
      = ((dotProd a1 a2 : ℚ) : ℝ)
        / (Real.sqrt ((sumSq a1 : ℚ) : ℝ) * Real.sqrt ((sumSq a2 : ℚ) : ℝ)) := by
    rw [cosineSimilarity_unwrapped w1 w2 a1 a2 h1 h2]
    rw [if_neg (by simp [hlen]), if_neg (by push_neg; exact ⟨ne_of_gt hsq1, ne_of_gt hsq2⟩)]
  have habs : |((dotProd a1 a2 : ℚ) : ℝ)|
      ≤ Real.sqrt ((sumSq a1 : ℚ) : ℝ) * Real.sqrt ((sumSq a2 : ℚ) : ℝ) := by
    have hcs : ((dotProd a1 a2 : ℚ) : ℝ)^2 ≤ ((sumSq a1 : ℚ) : ℝ) * ((sumSq a2 : ℚ) : ℝ) := by
      have h := list_cauchy_schwarz a1 a2
      have h' : ((dotProd a1 a2 * dotProd a1 a2 : ℚ) : ℝ)
          ≤ ((sumSq a1 * sumSq a2 : ℚ) : ℝ) := by exact_mod_cast h
      push_cast at h'
      nlinarith [h']
    calc |((dotProd a1 a2 : ℚ) : ℝ)|
        = Real.sqrt (((dotProd a1 a2 : ℚ) : ℝ)^2) := (Real.sqrt_sq_eq_abs _).symm
      _ ≤ Real.sqrt (((sumSq a1 : ℚ) : ℝ) * ((sumSq a2 : ℚ) : ℝ)) := Real.sqrt_le_sqrt hcs
      _ = Real.sqrt ((sumSq a1 : ℚ) : ℝ) * Real.sqrt ((sumSq a2 : ℚ) : ℝ) :=
          Real.sqrt_mul hS1pos.le _
  have hD : (0:ℝ) < Real.sqrt ((sumSq a1 : ℚ) : ℝ) * Real.sqrt ((sumSq a2 : ℚ) : ℝ) :=
    mul_pos hsq1 hsq2
  have hunit : |cosineSimilarity (some w1) (some w2)| ≤ 1 := by
    rw [heq, abs_div, abs_of_pos hD]
    exact (div_le_one hD).mpr habs
  obtain ⟨hlo, hhi⟩ := abs_le.mp hunit
  exact ⟨heq, hlo, hhi⟩
theorem sqrt_sumSq_eq_zero (a : List ℚ) (h : sumSq a = 0) :
    Real.sqrt ((sumSq a : ℚ) : ℝ) = 0 := by
  rw [h]
  simp

theorem cosineSimilarity_guard_zero (v1 v2 : Option EmbeddingInput)
    (h : CosGuardZero v1 v2) : cosineSimilarity v1 v2 = 0 := by
  rcases h with h | h | h | h | ⟨a1, a2, ha1, ha2, hbad⟩
  · rw [h, cosineSimilarity_none_left]
  · rw [h, cosineSimilarity_none_right]
  · cases v1 with
    | none => rw [cosineSimilarity_none_left]
    | some w1 =>
      cases v2 with
      | none => rw [cosineSimilarity_none_right]
      | some w2 => exact cosineSimilarity_unwrap_fail_left w1 w2 (by simpa using h)
  · cases v2 with
    | none => rw [cosineSimilarity_none_right]
    | some w2 =>
      cases v1 with
      | none => rw [cosineSimilarity_none_left]
      | some w1 => exact cosineSimilarity_unwrap_fail_right w1 w2 (by simpa using h)
  · cases v1 with
    | none => rw [cosineSimilarity_none_left]
    | some w1 =>
      cases v2 with
      | none => rw [cosineSimilarity_none_right]
      | some w2 =>
        rw [cosineSimilarity_unwrapped w1 w2 a1 a2 (by simpa using ha1) (by simpa using ha2)]
        by_cases hlen : a1.length = a2.length
        · rw [if_neg (by simp [hlen])]
          rcases hbad with hbad | hS1 | hS2
          · exact absurd hlen hbad
          · rw [if_pos (Or.inl (sqrt_sumSq_eq_zero a1 hS1))]
          · rw [if_pos (Or.inr (sqrt_sumSq_eq_zero a2 hS2))]
        · rw [if_pos hlen]

/-- Claim C6 counterexample: an object carrying a plain `values` field (not
the Firestore `_values` field) is not unwrapped, so the cosine of two such
wrappers of [1,2,3] is 0, not > 0.999. -/
theorem claim_C6_counterexample :
    cosineSimilarity (some (.wrappedValues [1, 2, 3])) (some (.wrappedValues [1, 2, 3])) = 0
    ∧ ¬ (999/1000 : ℝ)
        < cosineSimilarity (some (.wrappedValues [1, 2, 3])) (some (.wrappedValues [1, 2, 3])) := by
  have h : cosineSimilarity (some (.wrappedValues [1, 2, 3]))
      (some (.wrappedValues [1, 2, 3])) = 0 :=
    cosineSimilarity_unwrap_fail_left _ _ rfl
  exact ⟨h, by rw [h]; norm_num⟩

/-- Claim C6 (amended): cosine similarity returns 0 whenever either input is
absent, does not unwrap to an array (the unwrap step reads the Firestore
`_values` field, not `values`), has mismatched length, or has zero magnitude;
otherwise it equals dot(u,v)/(‖u‖·‖v‖), which lies in [-1, 1]; in particular
it is 1 > 0.999 on two `_values`-wrapped copies of [1,2,3], and 0 on
[1,2,3] vs [1,2,3,4]. -/
theorem claim_C6_cosine (v1 v2 : Option EmbeddingInput) :
    (CosGuardZero v1 v2 → cosineSimilarity v1 v2 = 0)
    ∧ (∀ w1 w2 a1 a2, v1 = some w1 → v2 = some w2 →
        unwrapArr w1 = some a1 → unwrapArr w2 = some a2 →
        a1.length = a2.length → sumSq a1 ≠ 0 → sumSq a2 ≠ 0 →
        cosineSimilarity v1 v2
            = ((dotProd a1 a2 : ℚ) : ℝ)
              / (Real.sqrt ((sumSq a1 : ℚ) : ℝ) * Real.sqrt ((sumSq a2 : ℚ) : ℝ))
          ∧ -1 ≤ cosineSimilarity v1 v2 ∧ cosineSimilarity v1 v2 ≤ 1)
    ∧ cosineSimilarity (some (.fsVec [1, 2, 3])) (some (.fsVec [1, 2, 3])) = 1
    ∧ (999/1000 : ℝ) < cosineSimilarity (some (.fsVec [1, 2, 3])) (some (.fsVec [1, 2, 3]))
    ∧ cosineSimilarity (some (.vec [1, 2, 3])) (some (.vec [1, 2, 3, 4])) = 0 := by
  have hfs : cosineSimilarity (some (.fsVec [1, 2, 3])) (some (.fsVec [1, 2, 3])) = 1 := by
    have hsum : sumSq [1, 2, 3] = 14 := by norm_num [sumSq]
    have hdot : dotProd [1, 2, 3] [1, 2, 3] = 14 := by norm_num [dotProd]
    obtain ⟨heq, -, -⟩ := cosineSimilarity_main_bounds (.fsVec [1, 2, 3]) (.fsVec [1, 2, 3])
      [1, 2, 3] [1, 2, 3] rfl rfl rfl (by norm_num [hsum]) (by norm_num [hsum])
    rw [heq, hsum, hdot]
    rw [show (((14:ℚ)):ℝ) = 14 by norm_num]
    rw [Real.mul_self_sqrt (by norm_num)]
    norm_num
  refine ⟨cosineSimilarity_guard_zero v1 v2, ?_, hfs, by rw [hfs]; norm_num, ?_⟩
  · intro w1 w2 a1 a2 hv1 hv2 h1 h2 hlen hS1 hS2
    subst hv1
    subst hv2
    exact cosineSimilarity_main_bounds w1 w2 a1 a2 h1 h2 hlen hS1 hS2
  · apply cosineSimilarity_guard_zero
    right; right; right; right
    exact ⟨[1, 2, 3], [1, 2, 3, 4], rfl, rfl, Or.inl (by norm_num)⟩

theorem claim_C6_witness :
    cosineSimilarity (some (.vec [0, 0, 0])) (some (.vec [1, 2, 3])) = 0
    ∧ cosineSimilarity (some (.vec [1, 0, 0])) (some (.vec [0, 1, 0])) ≤ 1 := by
  constructor
  · exact (claim_C6_cosine (some (.vec [0, 0, 0])) (some (.vec [1, 2, 3]))).1
      (by right; right; right; right
          exact ⟨[0, 0, 0], [1, 2, 3], rfl, rfl, Or.inr (Or.inl (by norm_num [sumSq]))⟩)
  · exact ((claim_C6_cosine (some (.vec [1, 0, 0])) (some (.vec [0, 1, 0]))).2.1
      (.vec [1, 0, 0]) (.vec [0, 1, 0]) [1, 0, 0] [0, 1, 0] rfl rfl rfl rfl rfl
      (by norm_num [sumSq]) (by norm_num [sumSq])).2.2
theorem simGE095_iff_cos (w1 w2 : EmbeddingInput) :
    simGE095 w1 w2 = true ↔ (19/20 : ℝ) ≤ cosineSimilarity (some w1) (some w2) := by
  cases hu1 : unwrapArr w1 with
  | none =>
    rw [cosineSimilarity_unwrap_fail_left w1 w2 hu1]
    simp only [simGE095, hu1]
    norm_num
  | some a1 =>
    cases hu2 : unwrapArr w2 with
    | none =>
      rw [cosineSimilarity_unwrap_fail_right w1 w2 hu2]
      simp only [simGE095, hu1, hu2]
      norm_num
    | some a2 =>
      rw [cosineSimilarity_unwrapped w1 w2 a1 a2 hu1 hu2]
      simp only [simGE095, hu1, hu2, Bool.and_eq_true, decide_eq_true_eq, bne_iff_ne, ne_eq]
      by_cases hlen : a1.length = a2.length
      · by_cases hS1 : sumSq a1 = 0
        · rw [if_neg (by simp [hlen]), if_pos (Or.inl (sqrt_sumSq_eq_zero a1 hS1))]
          constructor
          · rintro ⟨⟨⟨⟨-, h1⟩, -⟩, -⟩, -⟩
            exact absurd hS1 h1
          · intro h
            norm_num at h
        · by_cases hS2 : sumSq a2 = 0
          · rw [if_neg (by simp [hlen]), if_pos (Or.inr (sqrt_sumSq_eq_zero a2 hS2))]
            constructor
            · rintro ⟨⟨⟨⟨-, -⟩, h2⟩, -⟩, -⟩
              exact absurd hS2 h2
            · intro h
              norm_num at h
          · have hS1pos : (0:ℝ) < ((sumSq a1 : ℚ) : ℝ) := by
              have h := lt_of_le_of_ne (sumSq_nonneg a1) (Ne.symm hS1)
              exact_mod_cast h
            have hS2pos : (0:ℝ) < ((sumSq a2 : ℚ) : ℝ) := by
              have h := lt_of_le_of_ne (sumSq_nonneg a2) (Ne.symm hS2)
              exact_mod_cast h
            have hsq1 : (0:ℝ) < Real.sqrt ((sumSq a1 : ℚ) : ℝ) := Real.sqrt_pos.mpr hS1pos
            have hsq2 : (0:ℝ) < Real.sqrt ((sumSq a2 : ℚ) : ℝ) := Real.sqrt_pos.mpr hS2pos
            have hD : (0:ℝ) < Real.sqrt ((sumSq a1 : ℚ) : ℝ) * Real.sqrt ((sumSq a2 : ℚ) : ℝ) :=
              mul_pos hsq1 hsq2
            have hD2 : (Real.sqrt ((sumSq a1 : ℚ) : ℝ) * Real.sqrt ((sumSq a2 : ℚ) : ℝ))
                * (Real.sqrt ((sumSq a1 : ℚ) : ℝ) * Real.sqrt ((sumSq a2 : ℚ) : ℝ))
                = ((sumSq a1 : ℚ) : ℝ) * ((sumSq a2 : ℚ) : ℝ) := by
              rw [mul_mul_mul_comm, Real.mul_self_sqrt hS1pos.le, Real.mul_self_sqrt hS2pos.le]
            rw [if_neg (by simp [hlen]),
              if_neg (by push_neg; exact ⟨ne_of_gt hsq1, ne_of_gt hsq2⟩), le_div_iff₀ hD]
            constructor
            · rintro ⟨⟨⟨⟨-, -⟩, -⟩, hdot⟩, hineq⟩
              have hdotR : (0:ℝ) ≤ ((dotProd a1 a2 : ℚ) : ℝ) := by exact_mod_cast hdot
              have hineqR : 361 * (((sumSq a1 : ℚ) : ℝ) * ((sumSq a2 : ℚ) : ℝ))
                  ≤ 400 * (((dotProd a1 a2 : ℚ) : ℝ) * ((dotProd a1 a2 : ℚ) : ℝ)) := by
                exact_mod_cast hineq
              nlinarith [hD, hD2, sq_nonneg (20 * ((dotProd a1 a2 : ℚ) : ℝ)
                - 19 * (Real.sqrt ((sumSq a1 : ℚ) : ℝ) * Real.sqrt ((sumSq a2 : ℚ) : ℝ)))]
            · intro hle
              have hdotR : (0:ℝ) ≤ ((dotProd a1 a2 : ℚ) : ℝ) := by nlinarith [hD]
              have hdot : (0:ℚ) ≤ dotProd a1 a2 := by exact_mod_cast hdotR
              refine ⟨⟨⟨⟨hlen, hS1⟩, hS2⟩, hdot⟩, ?_⟩
              have hineqR : 361 * (((sumSq a1 : ℚ) : ℝ) * ((sumSq a2 : ℚ) : ℝ))
                  ≤ 400 * (((dotProd a1 a2 : ℚ) : ℝ) * ((dotProd a1 a2 : ℚ) : ℝ)) := by
                nlinarith [hD2, hD, hle]
              exact_mod_cast hineqR
      · rw [if_pos (by simp [hlen])]
        constructor
        · rintro ⟨⟨⟨⟨h, -⟩, -⟩, -⟩, -⟩
          exact absurd h hlen
        · intro h
          norm_num at h
theorem duplicatePairsFrom_length (ms : List Memory) :
    (duplicatePairsFrom ms).length ≤ ms.length * ms.length := by
  induction ms with
  | nil => simp [duplicatePairsFrom]
  | cons m rest ih =>
    simp only [duplicatePairsFrom, List.length_append, List.length_map, List.length_cons]
    have h1 : (rest.filter (fun x => pairQualifies m x)).length ≤ rest.length :=
      List.length_filter_le _ _
    have h2 : (rest.length + 1) * (rest.length + 1)
        = rest.length * rest.length + 2 * rest.length + 1 := by ring
    omega

theorem duplicatePairsFrom_mem (ms : List Memory) (p : Memory × Memory)
    (hp : p ∈ duplicatePairsFrom ms) : pairQualifies p.1 p.2 = true := by
  induction ms with
  | nil => simp [duplicatePairsFrom] at hp
  | cons m rest ih =>
    simp only [duplicatePairsFrom] at hp
    rcases List.mem_append.mp hp with h | h
    · obtain ⟨x, hx, rfl⟩ := List.mem_map.mp h
      exact (List.mem_filter.mp hx).2
    · exact ih h

/-- Claim C5 (amended): the merge pass processes the candidate pairs in the
scan's lexicographic order (not sorted by similarity) and does not remove
losers from later consideration; it performs the per-pair merge rule on each
qualifying pair, is bounded by one comparison per ordered pair (at most n²
candidates, count ≤ number of candidate pairs), and every processed pair's
cosine similarity reaches the 0.95 threshold. -/
theorem claim_C5_merge_pass (ms : List Memory) (updOk delOk : String → Bool) :
    (detectAndMergeDuplicates ms updOk delOk).1 = (duplicatePairsFrom ms).map mergePair
    ∧ (duplicatePairsFrom ms).length ≤ ms.length * ms.length
    ∧ (detectAndMergeDuplicates ms updOk delOk).2 ≤ (duplicatePairsFrom ms).length
    ∧ (∀ p ∈ duplicatePairsFrom ms, ∃ e1 e2,
        p.1.embedding = some e1 ∧ p.2.embedding = some e2
        ∧ (19/20 : ℝ) ≤ cosineSimilarity (some e1) (some e2)) := by
  refine ⟨rfl, duplicatePairsFrom_length ms, ?_, ?_⟩
  · calc (detectAndMergeDuplicates ms updOk delOk).2
        ≤ ((duplicatePairsFrom ms).map mergePair).length := List.length_filter_le _ _
      _ = (duplicatePairsFrom ms).length := List.length_map _ _
  · intro p hp
    have hq := duplicatePairsFrom_mem ms p hp
    unfold pairQualifies at hq
    cases h1 : p.1.embedding with
    | none => rw [h1] at hq; simp at hq
    | some e1 =>
      cases h2 : p.2.embedding with
      | none => rw [h1, h2] at hq; simp at hq
      | some e2 =>
        rw [h1, h2] at hq
        exact ⟨e1, e2, rfl, rfl, (simGE095_iff_cos e1 e2).mp hq⟩

theorem claim_C5_witness :
    ∃ e1 e2,
      (⟨"A", 10, some (9/10), none, none, none, none, some (.vec [1, 0])⟩ : Memory).embedding
          = some e1
      ∧ (⟨"B", 5, some (1/2), none, none, none, none, some (.vec [24, 7])⟩ : Memory).embedding
          = some e2
      ∧ (19/20 : ℝ) ≤ cosineSimilarity (some e1) (some e2) :=
  (claim_C5_merge_pass
    [⟨"A", 10, some (9/10), none, none, none, none, some (.vec [1, 0])⟩,
     ⟨"B", 5, some (1/2), none, none, none, none, some (.vec [24, 7])⟩]
    (fun _ => true) (fun _ => true)).2.2.2
    (⟨"A", 10, some (9/10), none, none, none, none, some (.vec [1, 0])⟩,
     ⟨"B", 5, some (1/2), none, none, none, none, some (.vec [24, 7])⟩)
    (by
      have h : duplicatePairsFrom
          [⟨"A", 10, some (9/10), none, none, none, none, some (.vec [1, 0])⟩,
           ⟨"B", 5, some (1/2), none, none, none, none, some (.vec [24, 7])⟩]
          = [(⟨"A", 10, some (9/10), none, none, none, none, some (.vec [1, 0])⟩,
              ⟨"B", 5, some (1/2), none, none, none, none, some (.vec [24, 7])⟩)] := by
        norm_num [duplicatePairsFrom, pairQualifies, simGE095, unwrapArr, sumSq, dotProd]
      rw [h]
      exact List.mem_singleton.mpr rfl)

/-- Claim C5 counterexample: with three mutually similar records, the pass
processes (A,B) before (A,C) although cos(A,B) = 24/25 < 1 = cos(A,C), and
record B is the loser of two distinct merges (deletion attempted twice) while
C is deleted in the second pair yet still folded a record in the third. -/
theorem claim_C5_counterexample :
    ((detectAndMergeDuplicates
        [⟨"A", 10, some (9/10), none, none, none, none, some (.vec [1, 0])⟩,
         ⟨"B", 5, some (1/2), none, none, none, none, some (.vec [24, 7])⟩,
         ⟨"C", 5, some (9/10), none, none, none, none, some (.vec [1, 0])⟩]
        (fun _ => true) (fun _ => true)).1.map (fun a => (a.keep.id, a.remove.id)))
      = [("A", "B"), ("A", "C"), ("C", "B")]
    ∧ cosineSimilarity (some (.vec [1, 0])) (some (.vec [24, 7]))
        < cosineSimilarity (some (.vec [1, 0])) (some (.vec [1, 0])) := by
  constructor
  · norm_num [detectAndMergeDuplicates, duplicatePairsFrom, pairQualifies, simGE095,
      unwrapArr, sumSq, dotProd, mergePair, mergeWinner, jsRateGT]
  · have h625 : Real.sqrt ((625:ℝ)) = 25 := by
      rw [show (625:ℝ) = 25^2 by norm_num, Real.sqrt_sq (by norm_num : (0:ℝ) ≤ 25)]
    have hAB : cosineSimilarity (some (.vec [1, 0])) (some (.vec [24, 7])) = 24/25 := by
      obtain ⟨heq, -, -⟩ := cosineSimilarity_main_bounds (.vec [1, 0]) (.vec [24, 7])
        [1, 0] [24, 7] rfl rfl rfl (by norm_num [sumSq]) (by norm_num [sumSq])
      rw [heq]
      rw [show sumSq [1, 0] = 1 by norm_num [sumSq],
        show sumSq [24, 7] = 625 by norm_num [sumSq],
        show dotProd [1, 0] [24, 7] = 24 by norm_num [dotProd]]
      rw [show (((1:ℚ)):ℝ) = 1 by norm_num, show (((625:ℚ)):ℝ) = 625 by norm_num,
        show (((24:ℚ)):ℝ) = 24 by norm_num]
      rw [Real.sqrt_one, h625]
      norm_num
    have hAC : cosineSimilarity (some (.vec [1, 0])) (some (.vec [1, 0])) = 1 := by
      obtain ⟨heq, -, -⟩ := cosineSimilarity_main_bounds (.vec [1, 0]) (.vec [1, 0])
        [1, 0] [1, 0] rfl rfl rfl (by norm_num [sumSq]) (by norm_num [sumSq])
      rw [heq]
      rw [show sumSq [1, 0] = 1 by norm_num [sumSq],
        show dotProd [1, 0] [1, 0] = 1 by norm_num [dotProd]]
      rw [show (((1:ℚ)):ℝ) = 1 by norm_num]
      rw [Real.sqrt_one]
      norm_num
    rw [hAB, hAC]
    norm_num
theorem claim_C1_witness :
    (parallelScaling true [⟨"M", 0, none, none, none, none, none, none⟩] 2
        (fun _ => none) none = .normal none)
    ∧ (∃ i r, i < (2:ℤ).toNat
        ∧ (fun _ => some (⟨true, none, none, none, none⟩ : TrajResult)) i = some r
        ∧ r.success = true
        ∧ parallelScaling true [⟨"M", 0, none, none, none, none, none, none⟩] 2
            (fun _ => some ⟨true, none, none, none, none⟩) none = .normal (some r)
        ∧ (∀ j rj, j < (2:ℤ).toNat
            → (fun _ => some (⟨true, none, none, none, none⟩ : TrajResult)) j = some rj
            → rj.success = true
            → scoreTrajectory (some rj) ≤ scoreTrajectory (some r)
              ∧ (scoreTrajectory (some rj) = scoreTrajectory (some r) → i ≤ j))) :=
  ⟨(claim_C1_parallel_selection [⟨"M", 0, none, none, none, none, none, none⟩] 2
      (fun _ => none) none (by simp) (by norm_num)).2
      (fun i r hi h => by simp at h),
   (claim_C1_parallel_selection [⟨"M", 0, none, none, none, none, none, none⟩] 2
      (fun _ => some ⟨true, none, none, none, none⟩) none (by simp) (by norm_num)).1
      ⟨0, ⟨true, none, none, none, none⟩, by norm_num, rfl, rfl⟩⟩

theorem claim_C2_witness :
    (∃ r ∈ (sequentialScalingRun (fun _ => ⟨true, none, none, none, none⟩) none 1).2,
        0 < scoreTrajectory (some r))
    ∧ (∃ (k : ℕ)
        (hk : k < (sequentialScalingRun (fun _ => ⟨true, none, none, none, none⟩) none 1).2.length),
        (sequentialScalingRun (fun _ => ⟨true, none, none, none, none⟩) none 1).1
          = some ((sequentialScalingRun (fun _ => ⟨true, none, none, none, none⟩) none 1).2.get
              ⟨k, hk⟩)
        ∧ (∀ (j : ℕ)
            (hj : j < (sequentialScalingRun (fun _ => ⟨true, none, none, none, none⟩) none 1).2.length),
            scoreTrajectory
                (some ((sequentialScalingRun (fun _ => ⟨true, none, none, none, none⟩) none 1).2.get
                  ⟨j, hj⟩))
              ≤ scoreTrajectory
                (some ((sequentialScalingRun (fun _ => ⟨true, none, none, none, none⟩) none 1).2.get
                  ⟨k, hk⟩)))
        ∧ (∀ (j : ℕ)
            (hj : j < (sequentialScalingRun (fun _ => ⟨true, none, none, none, none⟩) none 1).2.length),
            j < k →
            scoreTrajectory
                (some ((sequentialScalingRun (fun _ => ⟨true, none, none, none, none⟩) none 1).2.get
                  ⟨j, hj⟩))
              < scoreTrajectory
                (some ((sequentialScalingRun (fun _ => ⟨true, none, none, none, none⟩) none 1).2.get
                  ⟨k, hk⟩)))) := by
  have htrace : (sequentialScalingRun (fun _ => ⟨true, none, none, none, none⟩) none 1).2
      = [⟨true, none, none, none, none⟩] := by
    norm_num [sequentialScalingRun, seqLoop, bestStep, scoreTrajectory, jsStepsBonus,
      jsTimeBonus, jsOutputBonus, jsHtmlBonus]
  have hpos : ∃ r ∈ (sequentialScalingRun (fun _ => ⟨true, none, none, none, none⟩) none 1).2,
      0 < scoreTrajectory (some r) := by
    rw [htrace]
    refine ⟨⟨true, none, none, none, none⟩, by simp, ?_⟩
    norm_num [scoreTrajectory, jsStepsBonus, jsTimeBonus, jsOutputBonus, jsHtmlBonus]
  exact ⟨hpos,
    (claim_C2_sequential (fun _ => ⟨true, none, none, none, none⟩) none 1 ⟨false, none, none, none, none⟩).2.2 hpos⟩

theorem claim_C3_witness :
    (pruneLowQualityMemories
        [⟨"A", 10, some (1/10), some 1, some 9, none, none, none⟩,
         ⟨"B", 10, some (1/2), some 5, some 5, none, none, none⟩,
         ⟨"C", 5, some 0, some 0, some 5, none, none, none⟩] (fun _ => true)).2
      = (([⟨"A", 10, some (1/10), some 1, some 9, none, none, none⟩,
           ⟨"B", 10, some (1/2), some 5, some 5, none, none, none⟩,
           ⟨"C", 5, some 0, some 0, some 5, none, none, none⟩] : List Memory).filter
          (fun x => decide (ClaimPrunable x))).length :=
  (claim_C3_prune
    [⟨"A", 10, some (1/10), some 1, some 9, none, none, none⟩,
     ⟨"B", 10, some (1/2), some 5, some 5, none, none, none⟩,
     ⟨"C", 5, some 0, some 0, some 5, none, none, none⟩]
    (fun _ => true) (fun _ => false)
    ⟨"A", 10, some (1/10), some 1, some 9, none, none, none⟩).2.2.1

theorem claim_C4_witness :
    mergeWinner ⟨"R1", 10, some (8/10), none, none, none, none, none⟩
        ⟨"R2", 5, some (7/10), none, none, none, none, none⟩
      = (⟨"R1", 10, some (8/10), none, none, none, none, none⟩,
         ⟨"R2", 5, some (7/10), none, none, none, none, none⟩) :=
  (claim_C4_merge_winner ⟨"R1", 10, some (8/10), none, none, none, none, none⟩
    ⟨"R2", 5, some (7/10), none, none, none, none, none⟩).2.2.1 (by norm_num)

theorem claim_C7_witness :
    scoreTrajectory (some ⟨true, some 5, some 3000, none, none⟩)
      = claimScore (some ⟨true, some 5, some 3000, none, none⟩)
    ∧ 0 ≤ scoreTrajectory (some ⟨true, some 5, some 3000, none, none⟩)
    ∧ scoreTrajectory (some ⟨true, some 5, some 3000, none, none⟩) ≤ 1 :=
  claim_C7_scorer (some ⟨true, some 5, some 3000, none, none⟩)

theorem claim_C9_witness :
    consolidate (.ok [⟨"A", 10, some (1/10), none, none, none, none, none⟩])
        (.ok [⟨"A", 10, some (1/10), none, none, none, none, none⟩]) (.ok []) (.ok [])
        (fun _ => true) (fun _ => true) (fun _ => true) (fun _ => true) 0
      = .ok ⟨1,
          (pruneLowQualityMemories [⟨"A", 10, some (1/10), none, none, none, none, none⟩]
            (fun _ => true)).2,
          (detectAndMergeDuplicates [] (fun _ => true) (fun _ => true)).2,
          (archiveStaleMemories [] 0 (fun _ => true)).2, true, []⟩ :=
  (claim_C9_consolidate (.ok [⟨"A", 10, some (1/10), none, none, none, none, none⟩])
    (.ok [⟨"A", 10, some (1/10), none, none, none, none, none⟩]) (.ok []) (.ok [])
    (fun _ => true) (fun _ => true) (fun _ => true) (fun _ => true) 0).2
    [⟨"A", 10, some (1/10), none, none, none, none, none⟩]
    [⟨"A", 10, some (1/10), none, none, none, none, none⟩] [] [] rfl rfl rfl rfl

end ChantillyAdk
